import Mathlib

/-!
Shallow embedding of the election-management core of this repository
(src/types.ts, src/App.tsx, src/components/AdminPanel.tsx,
src/components/VotingBooth.tsx), together with theorems settling the
specification claims about the login/role resolver, the election
lifecycle controller, the ballot/vote-reset operations and the
backup round trip.

Machine integers of the source (timestamps, ids) are modelled as
Int/Nat; JavaScript string operations trim/toLowerCase are modelled by
the executable functions jsTrim/jsToLower below.  Each handler that
reads the clock
(Date.now()) or draws a fresh audit-entry id takes them as explicit
parameters `now` / `entryId`: one handler invocation is one synchronous
React event, so all Date.now() calls inside it are modelled as the same
instant.
-/

set_option autoImplicit false

namespace School

/-! ## Data model (src/types.ts) -/

inductive PositionType
  | GENERAL
  | CLASS_SPECIFIC
deriving DecidableEq, Repr

/-- src/types.ts `Position`.  `maxVotes?: number` is optional, hence
`Option Nat`. -/
structure Position where
  id : Nat
  name : String
  maxVotes : Option Nat
  type : PositionType
  associatedClass : Option String
deriving DecidableEq, Repr

/-- src/types.ts `Candidate`. -/
structure Candidate where
  id : Nat
  name : String
  positionId : Nat
  imageUrl : String
  mobile : String
  dob : String
  manifesto : String
deriving DecidableEq, Repr

/-- src/types.ts `Voter`.  The TS field `class` is a Lean keyword, so it
is rendered `class'`. -/
structure Voter where
  id : String
  name : String
  class' : String
  rollNo : String
  password : String
  hasVoted : Bool
  imageUrl : String
  isBlocked : Bool
deriving DecidableEq, Repr

/-- src/types.ts `Vote`. -/
structure Vote where
  voterId : String
  candidateId : Nat
  positionId : Nat
  timestamp : Int
deriving DecidableEq, Repr

/-- src/types.ts `ElectionDetails`; `endTime: number | null`. -/
structure ElectionDetails where
  name : String
  description : String
  endTime : Option Int
deriving DecidableEq, Repr

inductive ElectionStatus
  | NOT_STARTED
  | IN_PROGRESS
  | ENDED
deriving DecidableEq, Repr

/-- src/types.ts `Workspace`. -/
structure Workspace where
  id : String
  name : String
deriving DecidableEq, Repr

/-- src/types.ts `AuditLogAction` (closed enum). -/
inductive AuditLogAction
  | ELECTION_START | ELECTION_END | ELECTION_RESET | ELECTION_UPDATED
  | RESULTS_PUBLISHED | RESULTS_HIDDEN
  | VOTE_CAST
  | VOTER_CREATED | VOTER_UPDATED | VOTER_DELETED | VOTER_IMPORTED
  | VOTER_BLOCKED | VOTER_UNBLOCKED | VOTER_VOTE_RESET
  | CANDIDATE_CREATED | CANDIDATE_UPDATED | CANDIDATE_DELETED | CANDIDATE_IMPORTED
  | POSITION_CREATED | POSITION_UPDATED | POSITION_DELETED
  | ADMIN_LOGIN | VOTER_LOGIN_SUCCESS | VOTER_LOGIN_FAIL | ADMIN_PROFILE_UPDATED
  | WORKSPACE_CREATED | WORKSPACE_DELETED | SA_PROFILE_UPDATED
deriving DecidableEq, Repr

inductive Role
  | Voter
  | Admin
  | SuperAdmin
  | System
deriving DecidableEq, Repr

/-- The `actor` field of src/types.ts `AuditLogEntry`. -/
structure Actor where
  id : String
  name : String
  role : Role
deriving DecidableEq, Repr

/-- src/types.ts `AuditLogEntry`. -/
structure AuditLogEntry where
  id : String
  timestamp : Int
  actor : Actor
  action : AuditLogAction
  details : String
deriving DecidableEq, Repr

/-- src/types.ts `AdminProfile`. -/
structure AdminProfile where
  id : String
  name : String
  password : String
  imageUrl : String
  contact : String
deriving DecidableEq, Repr

/-- src/types.ts `WorkspaceData`. -/
structure WorkspaceData where
  positions : List Position
  candidates : List Candidate
  voters : List Voter
  votes : List Vote
  electionStatus : ElectionStatus
  electionDetails : ElectionDetails
  adminProfile : Option AdminProfile
  auditLog : List AuditLogEntry
  resultsPublished : Bool
deriving DecidableEq, Repr

inductive Theme
  | light
  | dark
deriving DecidableEq, Repr

/-- src/types.ts `FullAppState`.  The TS `Record<string, WorkspaceData>`
is modelled as an insertion-ordered association list with unique keys,
matching JavaScript object semantics. -/
structure FullAppState where
  workspaces : List Workspace
  superAdminProfile : AdminProfile
  workspaceData : List (String × WorkspaceData)
  theme : Theme
  lastWorkspaceId : Option String
  lastBackupTimestamp : Option Int
deriving DecidableEq, Repr

/-- JavaScript `String.prototype.trim()`: strip leading and trailing
whitespace.  (Defined over the character list so that it evaluates by
kernel reduction; Lean's own `String.trim` does not.) -/
def jsTrim (s : String) : String :=
  ⟨((s.data.dropWhile Char.isWhitespace).reverse.dropWhile Char.isWhitespace).reverse⟩

/-- JavaScript `String.prototype.toLowerCase()`. -/
def jsToLower (s : String) : String :=
  ⟨s.data.map Char.toLower⟩

/-- Construction of one audit entry, shared by `addAuditLog` and
`addAuditLogWithoutActor` in src/App.tsx (lines 393-426): the entry id
is the template string on Date.now()/Math.random(), modelled as the
explicit parameter `entryId`. -/
def mkAuditEntry (entryId : String) (now : Int) (actor : Actor)
    (action : AuditLogAction) (details : String) : AuditLogEntry :=
  { id := entryId, timestamp := now, actor := actor, action := action, details := details }

/-- src/App.tsx line 29 `getDefaultWorkspaceData`. -/
def getDefaultWorkspaceData : WorkspaceData :=
  { positions := []
    candidates := []
    voters := []
    votes := []
    electionStatus := .NOT_STARTED
    electionDetails := { name := "School Election", description := "", endTime := none }
    adminProfile := none
    auditLog := []
    resultsPublished := false }

/-! ## Session/Role resolver (src/App.tsx `handleLogin`, lines 520-571)

The handler reads the flat working state hydrated from the active
workspace: `superAdminProfile`, `activeWorkspace`, `adminProfile`,
`voters`, `electionStatus`, `auditLog`.  Its observable outcome (which
setters fire, which error is shown) is captured by `LoginResult`, and
the audit log it leaves behind is returned alongside. -/

structure LoginState where
  superAdminProfile : AdminProfile
  activeWorkspace : Option Workspace
  adminProfile : Option AdminProfile
  voters : List Voter
  electionStatus : ElectionStatus
  auditLog : List AuditLogEntry
deriving DecidableEq, Repr

inductive LoginResult
  | SuperAdmin
  | NoWorkspace
  | Admin (p : AdminProfile)
  | VoterBlocked (v : Voter)
  | VoterNotInProgress (v : Voter)
  | VoterAlreadyVoted (v : Voter)
  | VoterSuccess (v : Voter)
  | InvalidCredentials
deriving DecidableEq, Repr

/-- Step 4 of `handleLogin` (src/App.tsx lines 545-567): the voter
branch.  `voters.find(v => v.id.toLowerCase() === trimmedId.toLowerCase())`,
then the exact-password check, then the ordered rejection checks. -/
def voterCheck (s : LoginState) (trimmedId pass : String) (now : Int)
    (entryId : String) : LoginResult × List AuditLogEntry :=
  match s.voters.find? (fun v => jsToLower v.id == jsToLower trimmedId) with
  | some voter =>
    if pass = voter.password then
      if voter.isBlocked then
        (.VoterBlocked voter,
          mkAuditEntry entryId now ⟨voter.id, voter.name, .Voter⟩ .VOTER_LOGIN_FAIL
            ("Login failed for voter \x27" ++ voter.name ++ "\x27 (Account blocked).") :: s.auditLog)
      else if s.electionStatus ≠ .IN_PROGRESS then
        (.VoterNotInProgress voter,
          mkAuditEntry entryId now ⟨voter.id, voter.name, .Voter⟩ .VOTER_LOGIN_FAIL
            ("Login failed for voter \x27" ++ voter.name ++ "\x27 (Election not in progress).") :: s.auditLog)
      else if voter.hasVoted then
        (.VoterAlreadyVoted voter,
          mkAuditEntry entryId now ⟨voter.id, voter.name, .Voter⟩ .VOTER_LOGIN_FAIL
            ("Login failed for voter \x27" ++ voter.name ++ "\x27 (Already voted).") :: s.auditLog)
      else
        (.VoterSuccess voter,
          mkAuditEntry entryId now ⟨voter.id, voter.name, .Voter⟩ .VOTER_LOGIN_SUCCESS
            ("Voter \x27" ++ voter.name ++ "\x27 logged in successfully.") :: s.auditLog)
    else
      (.InvalidCredentials, s.auditLog)
  | none => (.InvalidCredentials, s.auditLog)

/-- src/App.tsx lines 520-571 `handleLogin`: (1) Super Admin
(workspace-agnostic, case-sensitive id after trim, exact password);
(2) workspace required; (3) workspace Admin; (4) Voter; (5) invalid. -/
def handleLogin (s : LoginState) (id pass : String) (now : Int)
    (entryId : String) : LoginResult × List AuditLogEntry :=
  let trimmedId := jsTrim id
  if trimmedId = s.superAdminProfile.id ∧ pass = s.superAdminProfile.password then
    (.SuperAdmin, s.auditLog)
  else
    match s.activeWorkspace with
    | none => (.NoWorkspace, s.auditLog)
    | some _ =>
      match s.adminProfile with
      | some ap =>
        if trimmedId = ap.id ∧ pass = ap.password then
          (.Admin ap,
            mkAuditEntry entryId now ⟨ap.id, ap.name, .Admin⟩ .ADMIN_LOGIN
              "Admin logged in successfully." :: s.auditLog)
        else
          voterCheck s trimmedId pass now entryId
      | none => voterCheck s trimmedId pass now entryId

/-! ### Login lemmas -/

/-- When the Super Admin check and the workspace Admin check both fail
and a workspace is active, `handleLogin` falls through to the voter
branch. -/
theorem handleLogin_eq_voterCheck (s : LoginState) (id pass : String) (now : Int)
    (entryId : String)
    (hsa : ¬(jsTrim id = s.superAdminProfile.id ∧ pass = s.superAdminProfile.password))
    (w : Workspace) (hws : s.activeWorkspace = some w)
    (hap : ∀ ap, s.adminProfile = some ap → ¬(jsTrim id = ap.id ∧ pass = ap.password)) :
    handleLogin s id pass now entryId = voterCheck s (jsTrim id) pass now entryId := by
  unfold handleLogin
  rw [hws]
  cases hap' : s.adminProfile with
  | none => simp [hsa]
  | some ap => simp [hsa, hap ap hap']

/-- The voter branch never yields a Super Admin session. -/
theorem voterCheck_fst_ne_superAdmin (s : LoginState) (tid pass : String) (now : Int)
    (eid : String) : (voterCheck s tid pass now eid).1 ≠ .SuperAdmin := by
  unfold voterCheck
  split
  · split_ifs <;> simp
  · simp

/-- The voter branch never yields an Admin session. -/
theorem voterCheck_fst_ne_admin (s : LoginState) (tid pass : String) (now : Int)
    (eid : String) (ap : AdminProfile) : (voterCheck s tid pass now eid).1 ≠ .Admin ap := by
  unfold voterCheck
  split
  · split_ifs <;> simp
  · simp

/-- Any voter-shaped outcome of the voter branch carries the voter the
case-insensitive lookup found, and is reached only on an exact password
match. -/
theorem voterCheck_pass_exact (s : LoginState) (tid pass : String) (now : Int)
    (eid : String) (v : Voter)
    (h : (voterCheck s tid pass now eid).1 = .VoterSuccess v ∨
         (voterCheck s tid pass now eid).1 = .VoterBlocked v ∨
         (voterCheck s tid pass now eid).1 = .VoterNotInProgress v ∨
         (voterCheck s tid pass now eid).1 = .VoterAlreadyVoted v) :
    pass = v.password := by
  unfold voterCheck at h
  revert h
  split
  · split_ifs <;> simp_all
  · simp

/-- Exact-password characterization of every successful or voter-shaped
outcome of `handleLogin`. -/
theorem handleLogin_pass_exact (s : LoginState) (id pass : String) (now : Int)
    (eid : String) :
    ((handleLogin s id pass now eid).1 = .SuperAdmin → pass = s.superAdminProfile.password) ∧
    (∀ ap, (handleLogin s id pass now eid).1 = .Admin ap → pass = ap.password) ∧
    (∀ v, ((handleLogin s id pass now eid).1 = .VoterSuccess v ∨
           (handleLogin s id pass now eid).1 = .VoterBlocked v ∨
           (handleLogin s id pass now eid).1 = .VoterNotInProgress v ∨
           (handleLogin s id pass now eid).1 = .VoterAlreadyVoted v) → pass = v.password) := by
  simp only [handleLogin]
  split_ifs with hc
  · refine ⟨fun _ => hc.2, ?_, ?_⟩ <;> intro x hx <;> simp at hx
  · cases hws : s.activeWorkspace with
    | none => refine ⟨by simp, by simp, by simp⟩
    | some w =>
      cases hap : s.adminProfile with
      | none =>
        dsimp only
        refine ⟨fun hx => absurd hx (voterCheck_fst_ne_superAdmin _ _ _ _ _), fun ap hx =>
          absurd hx (voterCheck_fst_ne_admin _ _ _ _ _ _), fun v hx => voterCheck_pass_exact _ _ _ _ _ v hx⟩
      | some ap =>
        dsimp only
        split_ifs with hc2
        · refine ⟨by simp, ?_, by simp⟩
          intro ap' hx
          simp at hx
          rw [← hx]
          exact hc2.2
        · refine ⟨fun hx => absurd hx (voterCheck_fst_ne_superAdmin _ _ _ _ _), fun ap' hx =>
            absurd hx (voterCheck_fst_ne_admin _ _ _ _ _ _), fun v hx => voterCheck_pass_exact _ _ _ _ _ v hx⟩

/-! ## Claim C1 -/

/-- C1: a credential pair matching the global Super Admin profile
(id compared case-sensitively after trimming, password exactly) always
resolves to the Super Admin role, for every state — in particular
regardless of the active workspace and even when the same pair also
matches the workspace AdminProfile or a Voter; the check precedes every
workspace-scoped check. -/
theorem C1_superAdmin_priority (s : LoginState) (id pass : String) (now : Int)
    (entryId : String)
    (hid : jsTrim id = s.superAdminProfile.id)
    (hpw : pass = s.superAdminProfile.password) :
    handleLogin s id pass now entryId = (.SuperAdmin, s.auditLog) := by
  unfold handleLogin
  rw [if_pos ⟨hid, hpw⟩]

/-- A concrete state in which the Super Admin credential pair also
matches the active workspace Admin and a voter. -/
def overlapState : LoginState :=
  { superAdminProfile :=
      { id := "superadmin", name := "Super Admin", password := "super123",
        imageUrl := "", contact := "" }
    activeWorkspace := some { id := "ws1", name := "Springfield High" }
    adminProfile := some
      { id := "superadmin", name := "Coinciding Admin", password := "super123",
        imageUrl := "", contact := "" }
    voters := [{ id := "superadmin", name := "Coinciding Voter", class' := "10",
                 rollNo := "1", password := "super123", hasVoted := false,
                 imageUrl := "", isBlocked := false }]
    electionStatus := .IN_PROGRESS
    auditLog := [] }

theorem C1_superAdmin_priority_witness :
    jsTrim "superadmin" = overlapState.superAdminProfile.id ∧
    "super123" = overlapState.superAdminProfile.password ∧
    handleLogin overlapState "superadmin" "super123" 1000 "e1" = (.SuperAdmin, []) :=
  ⟨by decide, by decide,
    C1_superAdmin_priority overlapState "superadmin" "super123" 1000 "e1"
      (by decide) (by decide)⟩

/-! ## Claim C2 -/

/-- C2: once a voter is found by case-insensitive id match and the
password matches exactly, the rejection checks apply in the fixed order
isBlocked, then electionStatus ≠ IN_PROGRESS, then hasVoted: a blocked
voter is rejected as blocked whatever the election status and hasVoted
flag are, and each rejection prepends exactly one VOTER_LOGIN_FAIL
audit entry. -/
theorem C2_voter_rejection_order (s : LoginState) (id pass : String) (now : Int)
    (entryId : String) (w : Workspace) (voter : Voter)
    (hsa : ¬(jsTrim id = s.superAdminProfile.id ∧ pass = s.superAdminProfile.password))
    (hws : s.activeWorkspace = some w)
    (hap : ∀ ap, s.adminProfile = some ap → ¬(jsTrim id = ap.id ∧ pass = ap.password))
    (hv : s.voters.find? (fun v => jsToLower v.id == jsToLower (jsTrim id)) = some voter)
    (hpw : pass = voter.password) :
    (voter.isBlocked = true →
      handleLogin s id pass now entryId =
        (.VoterBlocked voter,
          mkAuditEntry entryId now ⟨voter.id, voter.name, .Voter⟩ .VOTER_LOGIN_FAIL
            ("Login failed for voter \x27" ++ voter.name ++ "\x27 (Account blocked).")
            :: s.auditLog)) ∧
    (voter.isBlocked = false → s.electionStatus ≠ .IN_PROGRESS →
      handleLogin s id pass now entryId =
        (.VoterNotInProgress voter,
          mkAuditEntry entryId now ⟨voter.id, voter.name, .Voter⟩ .VOTER_LOGIN_FAIL
            ("Login failed for voter \x27" ++ voter.name ++ "\x27 (Election not in progress).")
            :: s.auditLog)) ∧
    (voter.isBlocked = false → s.electionStatus = .IN_PROGRESS → voter.hasVoted = true →
      handleLogin s id pass now entryId =
        (.VoterAlreadyVoted voter,
          mkAuditEntry entryId now ⟨voter.id, voter.name, .Voter⟩ .VOTER_LOGIN_FAIL
            ("Login failed for voter \x27" ++ voter.name ++ "\x27 (Already voted).")
            :: s.auditLog)) := by
  have hbranch := handleLogin_eq_voterCheck s id pass now entryId hsa w hws hap
  refine ⟨fun hb => ?_, fun hb hst => ?_, fun hb hst hvv => ?_⟩
  · rw [hbranch]; unfold voterCheck; rw [hv]; simp [← hpw, hb]
  · rw [hbranch]; unfold voterCheck; rw [hv]; simp [← hpw, hb, hst]
  · rw [hbranch]; unfold voterCheck; rw [hv]; simp [← hpw, hb, hst, hvv]

/-- A blocked voter who has also voted, while the election is not in
progress: the blocked rejection fires first. -/
def blockedState : LoginState :=
  { superAdminProfile :=
      { id := "superadmin", name := "Super Admin", password := "super123",
        imageUrl := "", contact := "" }
    activeWorkspace := some { id := "ws1", name := "Springfield High" }
    adminProfile := some
      { id := "admin", name := "Admin", password := "admin123",
        imageUrl := "", contact := "" }
    voters := [{ id := "10-1-ab", name := "Aarav", class' := "10",
                 rollNo := "1", password := "pw1", hasVoted := true,
                 imageUrl := "", isBlocked := true }]
    electionStatus := .NOT_STARTED
    auditLog := [] }

theorem C2_voter_rejection_order_witness :
    handleLogin blockedState "10-1-AB" "pw1" 2000 "e2" =
      (.VoterBlocked (blockedState.voters.get ⟨0, by decide⟩),
        mkAuditEntry "e2" 2000 ⟨"10-1-ab", "Aarav", .Voter⟩ .VOTER_LOGIN_FAIL
          "Login failed for voter \x27Aarav\x27 (Account blocked)." :: []) :=
  (C2_voter_rejection_order blockedState "10-1-AB" "pw1" 2000 "e2"
      { id := "ws1", name := "Springfield High" }
      (blockedState.voters.get ⟨0, by decide⟩)
      (by decide) (by decide)
      (by intro ap hap; cases hap; decide)
      (by decide) (by decide)).1 (by decide)

/-! ## Claim C10 -/

/-- C10: the login id is trimmed of surrounding whitespace before any
comparison — two ids with equal trims produce identical login outcomes
for every state — while passwords are compared exactly: every Super
Admin, Admin or voter-shaped outcome requires the submitted password to
equal the stored password verbatim. -/
theorem C10_trimmed_id_exact_password (s : LoginState) (id1 id2 pass : String)
    (now : Int) (entryId : String) (h : jsTrim id1 = jsTrim id2) :
    handleLogin s id1 pass now entryId = handleLogin s id2 pass now entryId ∧
    ((handleLogin s id2 pass now entryId).1 = .SuperAdmin →
      pass = s.superAdminProfile.password) ∧
    (∀ ap, (handleLogin s id2 pass now entryId).1 = .Admin ap → pass = ap.password) ∧
    (∀ v, ((handleLogin s id2 pass now entryId).1 = .VoterSuccess v ∨
           (handleLogin s id2 pass now entryId).1 = .VoterBlocked v ∨
           (handleLogin s id2 pass now entryId).1 = .VoterNotInProgress v ∨
           (handleLogin s id2 pass now entryId).1 = .VoterAlreadyVoted v) →
      pass = v.password) := by
  refine ⟨?_, handleLogin_pass_exact s id2 pass now entryId⟩
  simp only [handleLogin, h]

/-- Witness for C10: an id surrounded by spaces logs in exactly like the
bare id, and a password surrounded by spaces is rejected. -/
theorem C10_trimmed_id_exact_password_witness :
    handleLogin blockedState " 10-1-ab " "pw1" 3000 "e3" =
      handleLogin blockedState "10-1-ab" "pw1" 3000 "e3" ∧
    (handleLogin blockedState "10-1-ab" " pw1 " 3000 "e3").1 = .InvalidCredentials :=
  ⟨(C10_trimmed_id_exact_password blockedState " 10-1-ab " "10-1-ab" "pw1" 3000 "e3"
      (by decide)).1,
    by decide⟩

/-! ## Ballot casting and vote reset
(src/App.tsx `handleVote` lines 573-590,
src/components/AdminPanel.tsx `handleResetVoterVote` lines 614-627) -/

/-- The slice of working state these two handlers read and write. -/
structure VoteState where
  voters : List Voter
  votes : List Vote
  auditLog : List AuditLogEntry
deriving DecidableEq, Repr

/-- The `newVotes` computation of `handleVote`:
`Object.entries(selections).flatMap(([posId, canIds]) => canIds.map(canId => ...))`.
The selections object is modelled as an insertion-ordered association
list from position id to the selected candidate ids. -/
def ballotRows (voterId : String) (selections : List (Nat × List Nat))
    (now : Int) : List Vote :=
  selections.flatMap (fun pc => pc.2.map (fun canId =>
    { voterId := voterId, positionId := pc.1, candidateId := canId, timestamp := now }))

/-- src/App.tsx lines 573-590 `handleVote`: append the ballot rows, set
the submitting voter's hasVoted flag, log VOTE_CAST (the session actor
is the logged-in voter). -/
def handleVote (loggedInVoter : Voter) (selections : List (Nat × List Nat))
    (now : Int) (entryId : String) (s : VoteState) : VoteState :=
  let newVotes := ballotRows loggedInVoter.id selections now
  { votes := s.votes ++ newVotes
    voters := s.voters.map (fun v =>
      if v.id = loggedInVoter.id then { v with hasVoted := true } else v)
    auditLog := mkAuditEntry entryId now ⟨loggedInVoter.id, loggedInVoter.name, .Voter⟩
      .VOTE_CAST ("Voter \x27" ++ loggedInVoter.name ++ "\x27 cast their vote.")
      :: s.auditLog }

/-- src/components/AdminPanel.tsx lines 614-627 `handleResetVoterVote`
(the confirmed branch of the confirmation modal): drop every Vote row of
the voter and clear their hasVoted flag in the same update, logging
VOTER_VOTE_RESET under the admin session's actor. -/
def handleResetVoterVote (id : String) (now : Int) (entryId : String)
    (actor : Actor) (s : VoteState) : VoteState :=
  match s.voters.find? (fun v => v.id == id) with
  | none => s
  | some voter =>
    { votes := s.votes.filter (fun v => v.voterId != id)
      voters := s.voters.map (fun v =>
        if v.id = id then { v with hasVoted := false } else v)
      auditLog := mkAuditEntry entryId now actor .VOTER_VOTE_RESET
        ("Reset vote for voter: \x27" ++ voter.name ++ "\x27.") :: s.auditLog }

/-- The claimed invariant: a voter has voted iff at least one Vote row
carries their id. -/
def hasVotedInv (voters : List Voter) (votes : List Vote) : Prop :=
  ∀ v ∈ voters, v.hasVoted = true ↔ ∃ vt ∈ votes, vt.voterId = v.id

instance (voters : List Voter) (votes : List Vote) :
    Decidable (hasVotedInv voters votes) := by
  unfold hasVotedInv
  infer_instance

theorem mem_ballotRows_voterId (vid : String) (sel : List (Nat × List Nat))
    (now : Int) (vt : Vote) (h : vt ∈ ballotRows vid sel now) : vt.voterId = vid := by
  simp only [ballotRows, List.mem_flatMap, List.mem_map] at h
  obtain ⟨p, _, c, _, rfl⟩ := h
  rfl

theorem mem_ballotRows_of_sel (vid : String) (sel : List (Nat × List Nat))
    (now : Int) (p : Nat × List Nat) (hp : p ∈ sel) (c : Nat) (hc : c ∈ p.2) :
    ({ voterId := vid, candidateId := c, positionId := p.1, timestamp := now } : Vote)
      ∈ ballotRows vid sel now := by
  simp only [ballotRows, List.mem_flatMap, List.mem_map]
  exact ⟨p, hp, ⟨c, hc, rfl⟩⟩

/-! ## Claim C3 -/

/-- A voter who has not voted, in a workspace with no positions. -/
def emptyBallotVoter : Voter :=
  { id := "12-3-cd", name := "Isha", class' := "12", rollNo := "3",
    password := "3", hasVoted := false, imageUrl := "", isBlocked := false }

def emptyBallotState : VoteState :=
  { voters := [emptyBallotVoter], votes := [], auditLog := [] }

/-- C3 counterexample: the hasVoted ⟺ vote-row invariant is not
maintained by the code.  A ballot submission with an empty selection map
— reachable, because with zero displayable positions the completeness
check in VotingBooth (`displayablePositions.every`) is vacuously true —
sets the voter's hasVoted flag while appending no Vote row, so after it
a voter has hasVoted = true and no Vote row. -/
theorem C3_hasVoted_iff_counterexample :
    hasVotedInv emptyBallotState.voters emptyBallotState.votes ∧
    ¬ hasVotedInv (handleVote emptyBallotVoter [] 5000 "e4" emptyBallotState).voters
        (handleVote emptyBallotVoter [] 5000 "e4" emptyBallotState).votes := by
  constructor
  · decide
  · decide

/-- C3 amended: the hasVoted ⟺ vote-row invariant is preserved by a
ballot submission that selects at least one candidate (only the empty
submission of a voter with no displayable positions breaks it), and the
admin vote-reset deletes every Vote row of the voter and clears their
hasVoted flag in the same state update — never one without the other —
preserving the invariant. -/
theorem C3_hasVoted_iff_amended :
    (∀ (voter : Voter) (selections : List (Nat × List Nat)) (now : Int)
        (entryId : String) (s : VoteState),
      hasVotedInv s.voters s.votes →
      (∃ p ∈ selections, p.2 ≠ []) →
      hasVotedInv (handleVote voter selections now entryId s).voters
        (handleVote voter selections now entryId s).votes) ∧
    (∀ (id : String) (now : Int) (entryId : String) (actor : Actor)
        (s : VoteState) (voter : Voter),
      s.voters.find? (fun v => v.id == id) = some voter →
      (∀ vt ∈ (handleResetVoterVote id now entryId actor s).votes, vt.voterId ≠ id) ∧
      (∀ v ∈ (handleResetVoterVote id now entryId actor s).voters,
        v.id = id → v.hasVoted = false) ∧
      (hasVotedInv s.voters s.votes →
        hasVotedInv (handleResetVoterVote id now entryId actor s).voters
          (handleResetVoterVote id now entryId actor s).votes)) := by
  constructor
  · intro voter sel now entryId s hinv hne
    obtain ⟨p, hp, hpe⟩ := hne
    obtain ⟨c, hc⟩ := List.exists_mem_of_ne_nil p.2 hpe
    intro v hv
    simp only [handleVote, List.mem_map] at hv
    obtain ⟨u, hu, rfl⟩ := hv
    simp only [handleVote]
    by_cases hid : u.id = voter.id
    · rw [if_pos hid]
      constructor
      · intro _
        refine ⟨_, List.mem_append_right _ (mem_ballotRows_of_sel voter.id sel now p hp c hc), ?_⟩
        simp [hid]
      · intro _
        rfl
    · rw [if_neg hid]
      rw [hinv u hu]
      constructor
      · rintro ⟨vt, hvt, hvid⟩
        exact ⟨vt, List.mem_append_left _ hvt, hvid⟩
      · rintro ⟨vt, hvt, hvid⟩
        rcases List.mem_append.1 hvt with h | h
        · exact ⟨vt, h, hvid⟩
        · exact absurd (mem_ballotRows_voterId voter.id sel now vt h) (by rw [hvid]; exact hid)
  · intro id now entryId actor s voter hfind
    refine ⟨?_, ?_, ?_⟩
    · intro vt hvt
      simp only [handleResetVoterVote, hfind, List.mem_filter] at hvt
      simpa using hvt.2
    · intro v hv hvid
      simp only [handleResetVoterVote, hfind, List.mem_map] at hv
      obtain ⟨u, hu, rfl⟩ := hv
      by_cases hid : u.id = id
      · rw [if_pos hid]
      · rw [if_neg hid] at hvid
        exact absurd hvid hid
    · intro hinv v hv
      simp only [handleResetVoterVote, hfind, List.mem_map] at hv
      obtain ⟨u, hu, rfl⟩ := hv
      simp only [handleResetVoterVote, hfind]
      by_cases hid : u.id = id
      · rw [if_pos hid]
        constructor
        · intro h
          cases h
        · rintro ⟨vt, hvt, hvid⟩
          rw [List.mem_filter] at hvt
          exact absurd hvid (by simpa [hid] using hvt.2)
      · rw [if_neg hid]
        rw [hinv u hu]
        constructor
        · rintro ⟨vt, hvt, hvid⟩
          refine ⟨vt, List.mem_filter.2 ⟨hvt, ?_⟩, hvid⟩
          simp [hvid, hid]
        · rintro ⟨vt, hvt, hvid⟩
          exact ⟨vt, (List.mem_filter.1 hvt).1, hvid⟩

/-- A voter with a recorded vote, for exercising the reset branch. -/
def resetDemoState : VoteState :=
  { voters := [{ emptyBallotVoter with hasVoted := true }]
    votes := [{ voterId := "12-3-cd", candidateId := 10, positionId := 1, timestamp := 4000 }]
    auditLog := [] }

theorem C3_hasVoted_iff_amended_witness :
    hasVotedInv (handleVote emptyBallotVoter [(1, [10])] 5000 "e5" emptyBallotState).voters
      (handleVote emptyBallotVoter [(1, [10])] 5000 "e5" emptyBallotState).votes ∧
    hasVotedInv
      (handleResetVoterVote "12-3-cd" 6000 "e6" ⟨"admin", "Admin", .Admin⟩ resetDemoState).voters
      (handleResetVoterVote "12-3-cd" 6000 "e6" ⟨"admin", "Admin", .Admin⟩ resetDemoState).votes :=
  ⟨C3_hasVoted_iff_amended.1 emptyBallotVoter [(1, [10])] 5000 "e5" emptyBallotState
      (by decide) ⟨(1, [10]), by decide, by decide⟩,
    (C3_hasVoted_iff_amended.2 "12-3-cd" 6000 "e6" ⟨"admin", "Admin", .Admin⟩ resetDemoState
      { emptyBallotVoter with hasVoted := true } (by decide)).2.2 (by decide)⟩

/-! ## Workspace-data record operations

`workspaceData` is a JavaScript object keyed by workspace id; the
source updates it with spread syntax, which replaces the value of an
existing key in place and appends a fresh key at the end. -/

/-- Lookup `workspaceData[wsId]`. -/
def lookupRecord (k : String) (m : List (String × WorkspaceData)) : Option WorkspaceData :=
  (m.find? (fun p => p.1 == k)).map (fun p => p.2)

/-- The object-spread update `(prev) => ({ ...prev, [k]: v })`. -/
def setRecord (k : String) (v : WorkspaceData) :
    List (String × WorkspaceData) → List (String × WorkspaceData)
  | [] => [(k, v)]
  | p :: rest => if p.1 = k then (k, v) :: rest else p :: setRecord k v rest

theorem lookupRecord_setRecord_self (k : String) (v : WorkspaceData)
    (m : List (String × WorkspaceData)) : lookupRecord k (setRecord k v m) = some v := by
  induction m with
  | nil => simp [setRecord, lookupRecord]
  | cons p rest ih =>
    by_cases h : p.1 = k
    · simp [setRecord, h, lookupRecord]
    · have hb : (p.1 == k) = false := by simpa using h
      simp only [setRecord, if_neg h, lookupRecord, List.find?, hb]
      simp only [lookupRecord] at ih
      exact ih

theorem lookupRecord_setRecord_other (k k' : String) (v : WorkspaceData)
    (m : List (String × WorkspaceData)) (hk : k' ≠ k) :
    lookupRecord k' (setRecord k v m) = lookupRecord k' m := by
  have hb : (k == k') = false := by simpa using hk.symm
  induction m with
  | nil => simp [setRecord, lookupRecord, hb]
  | cons p rest ih =>
    by_cases h : p.1 = k
    · have hpk : (p.1 == k') = false := by
        rw [h]
        exact hb
      simp only [setRecord, if_pos h, lookupRecord, List.find?, hb, hpk]
    · simp only [setRecord, if_neg h, lookupRecord, List.find?]
      cases hpk : (p.1 == k') with
      | true => rfl
      | false =>
        simp only [lookupRecord] at ih
        exact ih

/-! ## Super-Admin "Enable New Election"
(src/App.tsx lines 643-668 `handleResetWorkspaceForNewElection`) -/

/-- The new-election reset of one workspace bag: clear votes, status
back to NOT_STARTED, endTime cleared, results unpublished, every
voter's hasVoted cleared, and the Super Admin's ELECTION_RESET entry
prepended to the preserved audit log. -/
def resetBagForNewElection (newLog : AuditLogEntry) (d : WorkspaceData) : WorkspaceData :=
  { d with
    votes := []
    electionStatus := .NOT_STARTED
    electionDetails := { d.electionDetails with endTime := none }
    resultsPublished := false
    voters := d.voters.map (fun v => { v with hasVoted := false })
    auditLog := newLog :: d.auditLog }

/-- src/App.tsx lines 643-668: the actor profile is
`loggedInSuperAdmin || superAdminProfile`; the entry id is the template
string on Date.now(). -/
def handleResetWorkspaceForNewElection (actorProfile : AdminProfile) (now : Int)
    (wsId : String) (wd : List (String × WorkspaceData)) :
    List (String × WorkspaceData) :=
  let newLog : AuditLogEntry :=
    { id := toString now ++ "-sa-reset"
      timestamp := now
      actor := { id := actorProfile.id, name := actorProfile.name, role := .SuperAdmin }
      action := .ELECTION_RESET
      details := "Super Admin enabled a new election for this workspace." }
  let wsCurrentData := (lookupRecord wsId wd).getD getDefaultWorkspaceData
  setRecord wsId (resetBagForNewElection newLog wsCurrentData) wd

/-! ## Claim C4 -/

/-- C4: for every workspace id whose data bag is present, the
Super-Admin "Enable New Election" reset empties the votes, returns the
status to NOT_STARTED, clears endTime, unpublishes results and clears
every voter's hasVoted flag, while preserving positions, candidates,
the voter list apart from that flag, the election name/description, the
adminProfile and the prior audit log, to which exactly one new
ELECTION_RESET entry attributed to the Super Admin is prepended; every
other workspace's bag is untouched. -/
theorem C4_new_election_reset (actorProfile : AdminProfile) (now : Int) (wsId : String)
    (wd : List (String × WorkspaceData)) (d : WorkspaceData)
    (h : lookupRecord wsId wd = some d) :
    ∃ d', lookupRecord wsId (handleResetWorkspaceForNewElection actorProfile now wsId wd) = some d' ∧
      d'.votes = [] ∧
      d'.electionStatus = .NOT_STARTED ∧
      d'.electionDetails.endTime = none ∧
      d'.electionDetails.name = d.electionDetails.name ∧
      d'.electionDetails.description = d.electionDetails.description ∧
      d'.resultsPublished = false ∧
      d'.voters = d.voters.map (fun v => { v with hasVoted := false }) ∧
      d'.positions = d.positions ∧
      d'.candidates = d.candidates ∧
      d'.adminProfile = d.adminProfile ∧
      (∃ e, d'.auditLog = e :: d.auditLog ∧ e.action = .ELECTION_RESET ∧
        e.actor = { id := actorProfile.id, name := actorProfile.name, role := .SuperAdmin }) ∧
      (∀ k, k ≠ wsId →
        lookupRecord k (handleResetWorkspaceForNewElection actorProfile now wsId wd) =
          lookupRecord k wd) := by
  have hmain : lookupRecord wsId (handleResetWorkspaceForNewElection actorProfile now wsId wd) =
      some (resetBagForNewElection
        { id := toString now ++ "-sa-reset", timestamp := now,
          actor := { id := actorProfile.id, name := actorProfile.name, role := .SuperAdmin },
          action := .ELECTION_RESET,
          details := "Super Admin enabled a new election for this workspace." } d) := by
    simp only [handleResetWorkspaceForNewElection, h, Option.getD_some]
    exact lookupRecord_setRecord_self _ _ _
  refine ⟨_, hmain, rfl, rfl, rfl, rfl, rfl, rfl, rfl, rfl, rfl, rfl, ⟨_, rfl, rfl, rfl⟩, ?_⟩
  intro k hk
  exact lookupRecord_setRecord_other wsId k _ wd hk

/-- The §8 example scenario: 3 voters (2 hasVoted), 5 votes. -/
def scenarioBag : WorkspaceData :=
  { positions := [{ id := 1, name := "President", maxVotes := some 1,
                    type := .GENERAL, associatedClass := none }]
    candidates := [{ id := 10, name := "A", positionId := 1, imageUrl := "",
                     mobile := "", dob := "", manifesto := "" }]
    voters :=
      [{ id := "v1", name := "V1", class' := "10", rollNo := "1", password := "1",
         hasVoted := true, imageUrl := "", isBlocked := false },
       { id := "v2", name := "V2", class' := "10", rollNo := "2", password := "2",
         hasVoted := true, imageUrl := "", isBlocked := false },
       { id := "v3", name := "V3", class' := "10", rollNo := "3", password := "3",
         hasVoted := false, imageUrl := "", isBlocked := false }]
    votes :=
      [{ voterId := "v1", candidateId := 10, positionId := 1, timestamp := 1 },
       { voterId := "v1", candidateId := 10, positionId := 1, timestamp := 2 },
       { voterId := "v2", candidateId := 10, positionId := 1, timestamp := 3 },
       { voterId := "v2", candidateId := 10, positionId := 1, timestamp := 4 },
       { voterId := "v2", candidateId := 10, positionId := 1, timestamp := 5 }]
    electionStatus := .ENDED
    electionDetails := { name := "School Election", description := "", endTime := some 99 }
    adminProfile := none
    auditLog := [mkAuditEntry "old" 1 ⟨"System", "System", .System⟩ .ELECTION_START "old entry"]
    resultsPublished := true }

def scenarioActor : AdminProfile :=
  { id := "superadmin", name := "Super Admin", password := "super123",
    imageUrl := "", contact := "" }

theorem C4_new_election_reset_witness :
    ∃ d', lookupRecord "w1"
        (handleResetWorkspaceForNewElection scenarioActor 7000 "w1"
          [("w0", getDefaultWorkspaceData), ("w1", scenarioBag)]) = some d' ∧
      d'.votes = [] ∧
      d'.electionStatus = .NOT_STARTED ∧
      d'.electionDetails.endTime = none ∧
      d'.electionDetails.name = scenarioBag.electionDetails.name ∧
      d'.electionDetails.description = scenarioBag.electionDetails.description ∧
      d'.resultsPublished = false ∧
      d'.voters = scenarioBag.voters.map (fun v => { v with hasVoted := false }) ∧
      d'.positions = scenarioBag.positions ∧
      d'.candidates = scenarioBag.candidates ∧
      d'.adminProfile = scenarioBag.adminProfile ∧
      (∃ e, d'.auditLog = e :: scenarioBag.auditLog ∧ e.action = .ELECTION_RESET ∧
        e.actor = { id := scenarioActor.id, name := scenarioActor.name, role := .SuperAdmin }) ∧
      (∀ k, k ≠ "w1" →
        lookupRecord k (handleResetWorkspaceForNewElection scenarioActor 7000 "w1"
          [("w0", getDefaultWorkspaceData), ("w1", scenarioBag)]) =
          lookupRecord k [("w0", getDefaultWorkspaceData), ("w1", scenarioBag)]) :=
  C4_new_election_reset scenarioActor 7000 "w1"
    [("w0", getDefaultWorkspaceData), ("w1", scenarioBag)] scenarioBag (by decide)

/-! ## Audit logging helper and sessions
(src/App.tsx lines 393-426 `addAuditLog` / `addAuditLogWithoutActor`) -/

/-- The logged-in session as read by `addAuditLog`. -/
structure Session where
  loggedInSuperAdmin : Option AdminProfile
  loggedInAdmin : Option AdminProfile
  loggedInVoter : Option Voter
deriving DecidableEq, Repr

/-- Actor resolution of `addAuditLog`: admin first, then voter, else
System. -/
def sessionActor (sess : Session) : Actor :=
  match sess.loggedInAdmin with
  | some a => ⟨a.id, a.name, .Admin⟩
  | none =>
    match sess.loggedInVoter with
    | some v => ⟨v.id, v.name, .Voter⟩
    | none => ⟨"System", "System", .System⟩

/-- src/App.tsx lines 393-415 `addAuditLog`: a Super Admin session
short-circuits to a console log and records nothing; otherwise one
entry is prepended under the resolved actor. -/
def addAuditLog (sess : Session) (entryId : String) (now : Int)
    (action : AuditLogAction) (details : String)
    (log : List AuditLogEntry) : List AuditLogEntry :=
  if sess.loggedInSuperAdmin.isSome then log
  else mkAuditEntry entryId now (sessionActor sess) action details :: log

/-! ## Election lifecycle controller
(src/App.tsx lines 482-514) -/

/-- src/App.tsx lines 482-496 `handleSetElectionStatus`, acting on the
hydrated working copy of the active workspace (a `WorkspaceData` bag).
The endTime seeding mirrors
`prev.endTime && prev.endTime > Date.now() ? prev.endTime : Date.now() + 8*60*60*1000`;
the JavaScript truthiness of `prev.endTime` makes an endTime of exactly
0 count as unset, hence the `t ≠ 0` conjunct. -/
def handleSetElectionStatus (loggedInAdmin : Option AdminProfile)
    (status : ElectionStatus) (now : Int) (entryId : String)
    (d : WorkspaceData) : WorkspaceData :=
  let actor : Actor :=
    match loggedInAdmin with
    | some a => ⟨a.id, a.name, .Admin⟩
    | none => ⟨"System", "System", .System⟩
  match status with
  | .IN_PROGRESS =>
    { d with
      electionDetails := { d.electionDetails with
        endTime := match d.electionDetails.endTime with
          | some t => if t ≠ 0 ∧ t > now then some t else some (now + 8 * 60 * 60 * 1000)
          | none => some (now + 8 * 60 * 60 * 1000) }
      auditLog := mkAuditEntry entryId now actor .ELECTION_START
        "The election has been started." :: d.auditLog
      electionStatus := status }
  | .ENDED =>
    { d with
      electionDetails := { d.electionDetails with endTime := none }
      auditLog := mkAuditEntry entryId now actor .ELECTION_END
        "The election has been ended." :: d.auditLog
      electionStatus := status }
  | .NOT_STARTED => { d with electionStatus := status }

/-- src/App.tsx lines 498-501 `handleSetResultsPublished`: sets the flag
and logs through `addAuditLog`; there is no electionStatus guard of any
kind in the handler. -/
def handleSetResultsPublished (sess : Session) (published : Bool) (now : Int)
    (entryId : String) (d : WorkspaceData) : WorkspaceData :=
  { d with
    resultsPublished := published
    auditLog := addAuditLog sess entryId now
      (if published then .RESULTS_PUBLISHED else .RESULTS_HIDDEN)
      (if published then "Results were publicly published."
       else "Results were hidden from public view.")
      d.auditLog }

/-- src/components/AdminPanel.tsx lines 853-861 `handlePublishResults`
(the confirmed branch of its confirmation modal): toggles to the
negation of the current flag; no status check either. -/
def handlePublishResults (sess : Session) (now : Int) (entryId : String)
    (d : WorkspaceData) : WorkspaceData :=
  handleSetResultsPublished sess (!d.resultsPublished) now entryId d

/-- src/App.tsx lines 503-514 `handleResetElection`: the handler first
calls `addAuditLog(ELECTION_RESET, ...)` and then fires the setters,
among them `setAuditLog([])`; React applies the queued state updates in
order, so the prepended ELECTION_RESET entry is overwritten and the
final audit log is empty. -/
def handleResetElection (sess : Session) (now : Int) (entryId : String)
    (d : WorkspaceData) : WorkspaceData :=
  let newLogList :=
    addAuditLog sess entryId now .ELECTION_RESET "The entire election data was reset." d.auditLog
  let afterLog := { d with auditLog := newLogList }
  { afterLog with
    positions := getDefaultWorkspaceData.positions
    candidates := getDefaultWorkspaceData.candidates
    voters := getDefaultWorkspaceData.voters
    votes := getDefaultWorkspaceData.votes
    auditLog := []
    electionStatus := getDefaultWorkspaceData.electionStatus
    electionDetails := getDefaultWorkspaceData.electionDetails
    resultsPublished := getDefaultWorkspaceData.resultsPublished }

/-! ## Claim C5 (code bug) -/

/-- C5: the Admin-triggered "Reset Election" does clear positions,
candidates, voters and votes, restore the default electionDetails and
unset resultsPublished — but the final audit log is EMPTY, not "cleared
except a single ELECTION_RESET marker": the entry prepended by
addAuditLog at the top of the handler is immediately wiped by the
subsequent setAuditLog([]), so no ELECTION_RESET marker survives. -/
theorem C5_reset_election_log_wiped (sess : Session) (now : Int) (entryId : String)
    (d : WorkspaceData) :
    handleResetElection sess now entryId d =
      { getDefaultWorkspaceData with adminProfile := d.adminProfile } ∧
    (handleResetElection sess now entryId d).auditLog = [] := by
  cases d
  exact ⟨rfl, rfl⟩

/-! ## Claim C7 -/

/-- C7: switching the status to IN_PROGRESS keeps a strictly-future
endTime, replaces a null or non-future endTime by now + 8 hours
(28800000 ms), sets the status, and prepends one ELECTION_START audit
entry.  (`0 ≤ now` reflects that Date.now() is a non-negative epoch
timestamp; it separates "strictly future" from the JavaScript
falsiness of an endTime of exactly 0.) -/
theorem C7_start_seeds_end_time (loggedInAdmin : Option AdminProfile) (now : Int)
    (entryId : String) (d : WorkspaceData) (hnow : 0 ≤ now) :
    (handleSetElectionStatus loggedInAdmin .IN_PROGRESS now entryId d).electionStatus
        = .IN_PROGRESS ∧
    (∀ t, d.electionDetails.endTime = some t → now < t →
      (handleSetElectionStatus loggedInAdmin .IN_PROGRESS now entryId d).electionDetails.endTime
        = some t) ∧
    ((d.electionDetails.endTime = none ∨
      ∃ t, d.electionDetails.endTime = some t ∧ t ≤ now) →
      (handleSetElectionStatus loggedInAdmin .IN_PROGRESS now entryId d).electionDetails.endTime
        = some (now + 28800000)) ∧
    (∃ e, (handleSetElectionStatus loggedInAdmin .IN_PROGRESS now entryId d).auditLog
        = e :: d.auditLog ∧ e.action = .ELECTION_START) := by
  refine ⟨rfl, ?_, ?_, ⟨_, rfl, rfl⟩⟩
  · intro t ht hfut
    simp only [handleSetElectionStatus, ht]
    rw [if_pos ⟨by omega, hfut⟩]
  · rintro (hn | ⟨t, ht, hle⟩)
    · simp only [handleSetElectionStatus, hn]
      norm_num
    · simp only [handleSetElectionStatus, ht]
      rw [if_neg (by omega)]
      norm_num

/-- Witness for C7 at both endTime shapes: a future endTime is kept, a
stale one is reseeded to now + 8h. -/
theorem C7_start_seeds_end_time_witness :
    (handleSetElectionStatus none .IN_PROGRESS 1000 "e7"
      { getDefaultWorkspaceData with
        electionDetails := { name := "School Election", description := "", endTime := some 5000 } }
      ).electionDetails.endTime = some 5000 ∧
    (handleSetElectionStatus none .IN_PROGRESS 1000 "e7b"
      getDefaultWorkspaceData).electionDetails.endTime = some 28801000 :=
  ⟨(C7_start_seeds_end_time none 1000 "e7"
      { getDefaultWorkspaceData with
        electionDetails := { name := "School Election", description := "", endTime := some 5000 } }
      (by decide)).2.1 5000 rfl (by decide),
    (C7_start_seeds_end_time none 1000 "e7b" getDefaultWorkspaceData
      (by decide)).2.2.1 (Or.inl rfl)⟩

/-! ## Claim C8 -/

def demoAdminSession : Session :=
  { loggedInSuperAdmin := none
    loggedInAdmin := some { id := "admin", name := "Admin", password := "admin123",
                            imageUrl := "", contact := "" }
    loggedInVoter := none }

/-- C8 counterexample: with the election still NOT_STARTED, invoking the
publish operation flips resultsPublished to true — the controller
neither rejects nor no-ops, contradicting the claim that out-of-order
invocations leave resultsPublished unchanged. -/
theorem C8_publish_guard_counterexample :
    getDefaultWorkspaceData.electionStatus = .NOT_STARTED ∧
    getDefaultWorkspaceData.resultsPublished = false ∧
    (handleSetResultsPublished demoAdminSession true 8000 "e8"
      getDefaultWorkspaceData).resultsPublished = true := by
  refine ⟨rfl, rfl, rfl⟩

/-- C8 amended: the controller applies the toggle unconditionally —
whatever the electionStatus, resultsPublished is set to the requested
value (the ENDED-only restriction lives only in UI disablement) and the
status itself is untouched; a non-Super-Admin session prepends exactly
one RESULTS_PUBLISHED / RESULTS_HIDDEN audit entry, while a Super Admin
session toggles without logging. -/
theorem C8_publish_unconditional (sess : Session) (published : Bool) (now : Int)
    (entryId : String) (d : WorkspaceData) :
    (handleSetResultsPublished sess published now entryId d).resultsPublished = published ∧
    (handleSetResultsPublished sess published now entryId d).electionStatus = d.electionStatus ∧
    (handleSetResultsPublished sess published now entryId d).votes = d.votes ∧
    (handleSetResultsPublished sess published now entryId d).voters = d.voters ∧
    (handleSetResultsPublished sess published now entryId d).auditLog =
      (if sess.loggedInSuperAdmin.isSome then d.auditLog
       else mkAuditEntry entryId now (sessionActor sess)
         (if published then .RESULTS_PUBLISHED else .RESULTS_HIDDEN)
         (if published then "Results were publicly published."
          else "Results were hidden from public view.") :: d.auditLog) :=
  ⟨rfl, rfl, rfl, rfl, rfl⟩

/-! ## Voting booth selection
(src/components/VotingBooth.tsx lines 243-270 `handleSelect`) -/

/-- `position.maxVotes || 1`: JavaScript `||` treats both undefined and
0 as falsy, so they default to 1. -/
def effMaxVotes (p : Position) : Nat :=
  match p.maxVotes with
  | none => 1
  | some m => if m = 0 then 1 else m

/-- Lookup `selections[positionId]` in the selections object. -/
def lookupSel (k : Nat) (m : List (Nat × List Nat)) : Option (List Nat) :=
  (m.find? (fun p => p.1 == k)).map (fun p => p.2)

/-- The object-spread update `(prev) => ({ ...prev, [k]: v })` on the
selections object. -/
def setSel (k : Nat) (v : List Nat) : List (Nat × List Nat) → List (Nat × List Nat)
  | [] => [(k, v)]
  | p :: rest => if p.1 = k then (k, v) :: rest else p :: setSel k v rest

/-- src/components/VotingBooth.tsx lines 243-270 `handleSelect`:
radio behaviour when the effective maxVotes is 1, otherwise checkbox
behaviour capped at maxVotes (the over-cap branch alerts and keeps the
current selection). -/
def handleSelect (positions : List Position) (positionId candidateId : Nat)
    (selections : List (Nat × List Nat)) : List (Nat × List Nat) :=
  match positions.find? (fun p => p.id == positionId) with
  | none => selections
  | some position =>
    let maxVotes := effMaxVotes position
    let currentSelections := (lookupSel positionId selections).getD []
    if maxVotes = 1 then
      setSel positionId [candidateId] selections
    else
      if currentSelections.contains candidateId then
        setSel positionId (currentSelections.filter (fun i => i != candidateId)) selections
      else
        if currentSelections.length < maxVotes then
          setSel positionId (currentSelections ++ [candidateId]) selections
        else
          setSel positionId currentSelections selections

/-- A sequence of booth clicks folded over the selections object. -/
def applyEvents (positions : List Position) (events : List (Nat × Nat))
    (sel : List (Nat × List Nat)) : List (Nat × List Nat) :=
  events.foldl (fun acc e => handleSelect positions e.1 e.2 acc) sel

/-- Every selection entry respects the effective maxVotes of its
position. -/
def selBound (positions : List Position) (sel : List (Nat × List Nat)) : Prop :=
  ∀ pl ∈ sel, ∀ p, positions.find? (fun q => q.id == pl.1) = some p →
    pl.2.length ≤ effMaxVotes p

/-- The selections object has no duplicate position keys. -/
def selKeysNodup (sel : List (Nat × List Nat)) : Prop :=
  (sel.map (fun p => p.1)).Nodup

theorem mem_setSel (k : Nat) (v : List Nat) (m : List (Nat × List Nat))
    (pl : Nat × List Nat) : pl ∈ setSel k v m → pl = (k, v) ∨ pl ∈ m := by
  induction m with
  | nil =>
    intro h
    simpa [setSel] using h
  | cons p rest ih =>
    intro h
    by_cases hp : p.1 = k
    · rw [setSel, if_pos hp, List.mem_cons] at h
      rcases h with h | h
      exacts [Or.inl h, Or.inr (List.mem_cons_of_mem _ h)]
    · rw [setSel, if_neg hp, List.mem_cons] at h
      rcases h with h | h
      · exact Or.inr (h ▸ List.mem_cons_self _ _)
      · rcases ih h with h' | h'
        exacts [Or.inl h', Or.inr (List.mem_cons_of_mem _ h')]

theorem map_fst_setSel_subset (k : Nat) (v : List Nat) (m : List (Nat × List Nat)) :
    ((setSel k v m).map (fun p => p.1)) ⊆ k :: m.map (fun p => p.1) := by
  intro a ha
  rw [List.mem_map] at ha
  obtain ⟨pl, hpl, rfl⟩ := ha
  rcases mem_setSel k v m pl hpl with rfl | hm
  · exact List.mem_cons_self _ _
  · exact List.mem_cons_of_mem _ (List.mem_map_of_mem _ hm)

theorem setSel_keys_nodup (k : Nat) (v : List Nat) (m : List (Nat × List Nat))
    (h : selKeysNodup m) : selKeysNodup (setSel k v m) := by
  induction m with
  | nil => simp [setSel, selKeysNodup]
  | cons p rest ih =>
    simp only [selKeysNodup, List.map_cons, List.nodup_cons] at h
    by_cases hp : p.1 = k
    · simp only [selKeysNodup, setSel, if_pos hp, List.map_cons, List.nodup_cons]
      exact ⟨by rw [← hp]; exact h.1, h.2⟩
    · simp only [selKeysNodup, setSel, if_neg hp, List.map_cons, List.nodup_cons]
      refine ⟨fun hmem => ?_, ih h.2⟩
      have hsub := map_fst_setSel_subset k v rest hmem
      rw [List.mem_cons] at hsub
      rcases hsub with h' | h'
      · exact hp h'
      · exact h.1 h'

theorem lookupSel_mem (k : Nat) (sel : List (Nat × List Nat)) (l : List Nat)
    (h : lookupSel k sel = some l) : (k, l) ∈ sel := by
  unfold lookupSel at h
  cases hf : sel.find? (fun p => p.1 == k) with
  | none => rw [hf] at h; cases h
  | some q =>
    rw [hf] at h
    have hq1 := List.find?_some hf
    have hqm : q ∈ sel := List.mem_of_find?_eq_some hf
    have : q = (k, l) := by
      cases q with
      | mk q1 q2 =>
        simp only [beq_iff_eq] at hq1
        simp at h
        simp [hq1, h]
    rwa [← this]

/-- The current-selection list read by `handleSelect` is within bound
whenever the invariant holds. -/
theorem current_selBound (positions : List Position) (sel : List (Nat × List Nat))
    (hb : selBound positions sel) (pid : Nat) (p : Position)
    (hp : positions.find? (fun q => q.id == pid) = some p) :
    ((lookupSel pid sel).getD []).length ≤ effMaxVotes p := by
  cases hl : lookupSel pid sel with
  | none => simp [List.length_nil]
  | some l =>
    simpa using hb (pid, l) (lookupSel_mem pid sel l hl) p hp

theorem effMaxVotes_pos (p : Position) : 1 ≤ effMaxVotes p := by
  unfold effMaxVotes
  cases p.maxVotes with
  | none => exact le_refl 1
  | some m =>
    by_cases hm : m = 0
    · simp [hm]
    · simp [hm]
      omega

/-- One booth click preserves the per-position bound. -/
theorem handleSelect_selBound (positions : List Position) (pid cid : Nat)
    (sel : List (Nat × List Nat)) (hb : selBound positions sel) :
    selBound positions (handleSelect positions pid cid sel) := by
  unfold handleSelect
  cases hf : positions.find? (fun p => p.id == pid) with
  | none => exact hb
  | some position =>
    have hcur := current_selBound positions sel hb pid position hf
    have hkey : ∀ (newl : List Nat), newl.length ≤ effMaxVotes position →
        selBound positions (setSel pid newl sel) := by
      intro newl hlen pl hpl q hq
      rcases mem_setSel pid newl sel pl hpl with rfl | hm
      · rw [hf] at hq
        cases hq
        exact hlen
      · exact hb pl hm q hq
    dsimp only
    split_ifs with h1 h2 h3
    · exact hkey _ (by simp [h1])
    · exact hkey _ (le_trans (List.length_filter_le _ _) hcur)
    · exact hkey _ (by simpa using h3)
    · exact hkey _ hcur

/-- One booth click preserves key uniqueness. -/
theorem handleSelect_keys_nodup (positions : List Position) (pid cid : Nat)
    (sel : List (Nat × List Nat)) (hn : selKeysNodup sel) :
    selKeysNodup (handleSelect positions pid cid sel) := by
  unfold handleSelect
  cases positions.find? (fun p => p.id == pid) with
  | none => exact hn
  | some position =>
    dsimp only
    split_ifs <;> exact setSel_keys_nodup _ _ _ hn

theorem applyEvents_selBound (positions : List Position) (events : List (Nat × Nat)) :
    ∀ sel, selBound positions sel → selBound positions (applyEvents positions events sel) := by
  induction events with
  | nil => intro sel h; exact h
  | cons e rest ih =>
    intro sel h
    exact ih _ (handleSelect_selBound positions e.1 e.2 sel h)

theorem applyEvents_keys_nodup (positions : List Position) (events : List (Nat × Nat)) :
    ∀ sel, selKeysNodup sel → selKeysNodup (applyEvents positions events sel) := by
  induction events with
  | nil => intro sel h; exact h
  | cons e rest ih =>
    intro sel h
    exact ih _ (handleSelect_keys_nodup positions e.1 e.2 sel h)

theorem mem_ballotRows_positionId (vid : String) (sel : List (Nat × List Nat))
    (now : Int) (vt : Vote) (h : vt ∈ ballotRows vid sel now) :
    vt.positionId ∈ sel.map (fun p => p.1) := by
  simp only [ballotRows, List.mem_flatMap, List.mem_map] at h
  obtain ⟨p, hp, c, _, rfl⟩ := h
  exact List.mem_map_of_mem _ hp

/-- With unique keys, the rows of one submission that belong to a
selected position are exactly one row per selected candidate. -/
theorem ballotRows_filter_eq (vid : String) (now : Int) :
    ∀ (sel : List (Nat × List Nat)), selKeysNodup sel →
    ∀ (pid : Nat) (l : List Nat), (pid, l) ∈ sel →
    (ballotRows vid sel now).filter (fun r => r.positionId == pid) =
      l.map (fun c =>
        { voterId := vid, candidateId := c, positionId := pid, timestamp := now }) := by
  intro sel
  induction sel with
  | nil => intro _ pid l hmem; cases hmem
  | cons p rest ih =>
    intro hn pid l hmem
    simp only [selKeysNodup, List.map_cons, List.nodup_cons] at hn
    have hsplit : ballotRows vid (p :: rest) now =
        p.2.map (fun c =>
          { voterId := vid, candidateId := c, positionId := p.1, timestamp := now }) ++
        ballotRows vid rest now := by
      simp [ballotRows]
    rw [List.mem_cons] at hmem
    rcases hmem with heq | hmem
    · subst heq
      dsimp only at hsplit hn
      rw [hsplit, List.filter_append]
      have hall : (l.map (fun c =>
          ({ voterId := vid, candidateId := c, positionId := pid, timestamp := now } : Vote))
          ).filter (fun r => r.positionId == pid) =
          l.map (fun c =>
            { voterId := vid, candidateId := c, positionId := pid, timestamp := now }) := by
        rw [List.filter_eq_self]
        intro a ha
        rw [List.mem_map] at ha
        obtain ⟨c, _, rfl⟩ := ha
        simp
      have hnone : (ballotRows vid rest now).filter (fun r => r.positionId == pid) = [] := by
        rw [List.filter_eq_nil_iff]
        intro vt hvt
        have := mem_ballotRows_positionId vid rest now vt hvt
        simp only [beq_iff_eq]
        intro hvp
        exact hn.1 (by rwa [← hvp])
      rw [hall, hnone, List.append_nil]
    · have hne : p.1 ≠ pid := by
        intro hcontra
        exact hn.1 (hcontra ▸ List.mem_map_of_mem _ hmem)
      rw [hsplit, List.filter_append]
      have hblock : (p.2.map (fun c =>
          ({ voterId := vid, candidateId := c, positionId := p.1, timestamp := now } : Vote))
          ).filter (fun r => r.positionId == pid) = [] := by
        rw [List.filter_eq_nil_iff]
        intro vt hvt
        rw [List.mem_map] at hvt
        obtain ⟨c, _, rfl⟩ := hvt
        simpa using hne
      rw [hblock, List.nil_append]
      exact ih hn.2 pid l hmem

/-! ## Claim C6 -/

/-- C6: for a selections object built by any sequence of booth clicks,
submitting the ballot appends — for each selected position with
effective maxVotes N — exactly min(number of selected candidates, N)
Vote rows for that position (the booth cap makes the count equal the
min), one per selected candidate, every row carrying the submitting
voter's id and the single submission timestamp, and `handleVote`
appends exactly these rows after the existing votes. -/
theorem C6_ballot_row_counts (positions : List Position) (events : List (Nat × Nat))
    (voter : Voter) (now : Int) (entryId : String) (s : VoteState)
    (sel : List (Nat × List Nat)) (hsel : sel = applyEvents positions events [])
    (pid : Nat) (l : List Nat) (hmem : (pid, l) ∈ sel)
    (p : Position) (hp : positions.find? (fun q => q.id == pid) = some p) :
    (ballotRows voter.id sel now).filter (fun r => r.positionId == pid) =
      l.map (fun c =>
        { voterId := voter.id, candidateId := c, positionId := pid, timestamp := now }) ∧
    ((ballotRows voter.id sel now).filter (fun r => r.positionId == pid)).length
      = min l.length (effMaxVotes p) ∧
    (∀ r ∈ ballotRows voter.id sel now, r.voterId = voter.id ∧ r.timestamp = now) ∧
    (handleVote voter sel now entryId s).votes = s.votes ++ ballotRows voter.id sel now := by
  have hn : selKeysNodup sel := by
    rw [hsel]
    exact applyEvents_keys_nodup positions events [] (by simp [selKeysNodup])
  have hb : selBound positions sel := by
    rw [hsel]
    exact applyEvents_selBound positions events [] (by intro pl hpl; cases hpl)
  have hfe := ballotRows_filter_eq voter.id now sel hn pid l hmem
  have hlen : l.length ≤ effMaxVotes p := hb (pid, l) hmem p hp
  refine ⟨hfe, ?_, ?_, rfl⟩
  · rw [hfe, List.length_map, Nat.min_eq_left hlen]
  · intro r hr
    exact ⟨mem_ballotRows_voterId voter.id sel now r hr, by
      simp only [ballotRows, List.mem_flatMap, List.mem_map] at hr
      obtain ⟨q, _, c, _, rfl⟩ := hr
      rfl⟩

/-- A position with maxVotes 2: three clicks select two candidates, the
third is refused by the cap, and submission yields exactly
min(2, 2) = 2 rows for the position. -/
def twoSeatPosition : Position :=
  { id := 1, name := "Committee", maxVotes := some 2, type := .GENERAL,
    associatedClass := none }

theorem C6_ballot_row_counts_witness :
    (ballotRows "v1" (applyEvents [twoSeatPosition] [(1, 10), (1, 11), (1, 12)] []) 42
      ).filter (fun r => r.positionId == 1) =
      [{ voterId := "v1", candidateId := 10, positionId := 1, timestamp := 42 },
       { voterId := "v1", candidateId := 11, positionId := 1, timestamp := 42 }] ∧
    ((ballotRows "v1" (applyEvents [twoSeatPosition] [(1, 10), (1, 11), (1, 12)] []) 42
      ).filter (fun r => r.positionId == 1)).length = min 2 (effMaxVotes twoSeatPosition) := by
  have h := C6_ballot_row_counts [twoSeatPosition] [(1, 10), (1, 11), (1, 12)]
    { id := "v1", name := "V1", class' := "10", rollNo := "1", password := "1",
      hasVoted := false, imageUrl := "", isBlocked := false }
    42 "e10" { voters := [], votes := [], auditLog := [] }
    (applyEvents [twoSeatPosition] [(1, 10), (1, 11), (1, 12)] []) rfl
    1 [10, 11] (by decide) twoSeatPosition (by decide)
  exact ⟨by rw [h.1]; decide, by rw [h.2.1]; decide⟩

/-! ## Backup and restore
(src/App.tsx lines 428-479 `handleBackupToJson` / `handleRestoreFromJson`)

Export serializes the whole FullAppState with `JSON.stringify`; the
restore path parses the document with `JSON.parse` and reads it back as
a FullAppState (the source applies no further validation).  The JSON
document is modelled as a `Json` tree: the export is the tree
`JSON.stringify` would produce (undefined optional fields omitted,
null fields kept, numbers are the integers this state contains), and
the import reads the fields back by key, per the declared TypeScript
shape.  The round-trip claim is settled at the tree level —
stringify/parse of a tree is the identity of the JSON metatheory. -/

inductive Json
  | null
  | bool (b : Bool)
  | num (n : Int)
  | str (s : String)
  | arr (xs : List Json)
  | obj (fields : List (String × Json))

/-- Key lookup in a JSON object. -/
def getField (fields : List (String × Json)) (k : String) : Option Json :=
  (fields.find? (fun p => p.1 == k)).map (fun p => p.2)

def decodeStr : Json → Option String
  | .str s => some s
  | _ => none

def decodeInt : Json → Option Int
  | .num n => some n
  | _ => none

def decodeNat : Json → Option Nat
  | .num n => if 0 ≤ n then some n.toNat else none
  | _ => none

def decodeBool : Json → Option Bool
  | .bool b => some b
  | _ => none

/-- `string | null` fields. -/
def encodeOptStr : Option String → Json
  | none => .null
  | some s => .str s

def decodeOptStr : Json → Option (Option String)
  | .null => some none
  | .str s => some (some s)
  | _ => none

/-- `number | null` fields. -/
def encodeOptInt : Option Int → Json
  | none => .null
  | some n => .num n

def decodeOptInt : Json → Option (Option Int)
  | .null => some none
  | .num n => some (some n)
  | _ => none

theorem decodeNat_num (n : Nat) : decodeNat (.num n) = some n := by
  simp [decodeNat]

theorem getField_cons_self (k : String) (v : Json) (rest : List (String × Json)) :
    getField ((k, v) :: rest) k = some v := by
  simp [getField, List.find?]

theorem getField_cons_ne (k k' : String) (v : Json) (rest : List (String × Json))
    (h : (k == k') = false) : getField ((k, v) :: rest) k' = getField rest k' := by
  simp [getField, List.find?, h]

/-- Element-wise decoding of a JSON array (fails if any element
fails). -/
def decodeList {α : Type} (dec : Json → Option α) : List Json → Option (List α)
  | [] => some []
  | j :: rest => do
    let x ← dec j
    let xs ← decodeList dec rest
    pure (x :: xs)

/-- Round trip for lists: decoding an encoded list element-wise
succeeds. -/
theorem decodeList_map_encode {α : Type} (enc : α → Json) (dec : Json → Option α)
    (h : ∀ x, dec (enc x) = some x) (xs : List α) :
    decodeList dec (xs.map enc) = some xs := by
  induction xs with
  | nil => rfl
  | cons x xs ih => simp [decodeList, h, ih]

/-- src/types.ts `AdminProfile` as serialized by JSON.stringify. -/
def encodeAdminProfile (a : AdminProfile) : Json :=
  .obj [("id", .str a.id), ("name", .str a.name), ("password", .str a.password),
        ("imageUrl", .str a.imageUrl), ("contact", .str a.contact)]

def decodeAdminProfile (j : Json) : Option AdminProfile :=
  match j with
  | .obj fields => do
    let id ← (getField fields "id").bind decodeStr
    let name ← (getField fields "name").bind decodeStr
    let password ← (getField fields "password").bind decodeStr
    let imageUrl ← (getField fields "imageUrl").bind decodeStr
    let contact ← (getField fields "contact").bind decodeStr
    pure { id := id, name := name, password := password,
           imageUrl := imageUrl, contact := contact }
  | _ => none

theorem decodeAdminProfile_encode (a : AdminProfile) :
    decodeAdminProfile (encodeAdminProfile a) = some a := by
  cases a
  rfl

/-- A JSON array decoded element-wise. -/
def decodeArr {α : Type} (dec : Json → Option α) : Json → Option (List α)
  | .arr xs => decodeList dec xs
  | _ => none

theorem decodeArr_map_encode {α : Type} (enc : α → Json) (dec : Json → Option α)
    (h : ∀ x, dec (enc x) = some x) (xs : List α) :
    decodeArr dec (.arr (xs.map enc)) = some xs := by
  simp [decodeArr, decodeList_map_encode enc dec h]

def encodePositionType : PositionType → Json
  | .GENERAL => .str "GENERAL"
  | .CLASS_SPECIFIC => .str "CLASS_SPECIFIC"

def decodePositionType : Json → Option PositionType
  | .str "GENERAL" => some PositionType.GENERAL
  | .str "CLASS_SPECIFIC" => some PositionType.CLASS_SPECIFIC
  | _ => none

/-- src/types.ts `Position` as serialized: an undefined `maxVotes?` is
omitted by JSON.stringify, a present one is a number. -/
def encodePosition (p : Position) : Json :=
  .obj ([("id", Json.num p.id), ("name", Json.str p.name)] ++
    (match p.maxVotes with
     | some m => [("maxVotes", Json.num m)]
     | none => []) ++
    [("type", encodePositionType p.type),
     ("associatedClass", encodeOptStr p.associatedClass)])

def decodePosition (j : Json) : Option Position :=
  match j with
  | .obj fields => do
    let id ← (getField fields "id").bind decodeNat
    let name ← (getField fields "name").bind decodeStr
    let maxVotes ← (match getField fields "maxVotes" with
      | none => some none
      | some v => (decodeNat v).map some)
    let ty ← (getField fields "type").bind decodePositionType
    let ac ← (getField fields "associatedClass").bind decodeOptStr
    pure { id := id, name := name, maxVotes := maxVotes, type := ty,
           associatedClass := ac }
  | _ => none

theorem decodePosition_encode (p : Position) :
    decodePosition (encodePosition p) = some p := by
  cases p with
  | mk id name mv ty ac => cases mv <;> cases ty <;> cases ac <;> rfl

def encodeCandidate (c : Candidate) : Json :=
  .obj [("id", Json.num c.id), ("name", Json.str c.name),
        ("positionId", Json.num c.positionId), ("imageUrl", Json.str c.imageUrl),
        ("mobile", Json.str c.mobile), ("dob", Json.str c.dob),
        ("manifesto", Json.str c.manifesto)]

def decodeCandidate (j : Json) : Option Candidate :=
  match j with
  | .obj fields => do
    let id ← (getField fields "id").bind decodeNat
    let name ← (getField fields "name").bind decodeStr
    let positionId ← (getField fields "positionId").bind decodeNat
    let imageUrl ← (getField fields "imageUrl").bind decodeStr
    let mobile ← (getField fields "mobile").bind decodeStr
    let dob ← (getField fields "dob").bind decodeStr
    let manifesto ← (getField fields "manifesto").bind decodeStr
    pure { id := id, name := name, positionId := positionId, imageUrl := imageUrl,
           mobile := mobile, dob := dob, manifesto := manifesto }
  | _ => none

theorem decodeCandidate_encode (c : Candidate) :
    decodeCandidate (encodeCandidate c) = some c := by
  cases c
  rfl

/-- src/types.ts `Voter`; the TS field `class` keeps its JSON key. -/
def encodeVoter (v : Voter) : Json :=
  .obj [("id", Json.str v.id), ("name", Json.str v.name),
        ("class", Json.str v.class'), ("rollNo", Json.str v.rollNo),
        ("password", Json.str v.password), ("hasVoted", Json.bool v.hasVoted),
        ("imageUrl", Json.str v.imageUrl), ("isBlocked", Json.bool v.isBlocked)]

def decodeVoter (j : Json) : Option Voter :=
  match j with
  | .obj fields => do
    let id ← (getField fields "id").bind decodeStr
    let name ← (getField fields "name").bind decodeStr
    let cls ← (getField fields "class").bind decodeStr
    let rollNo ← (getField fields "rollNo").bind decodeStr
    let password ← (getField fields "password").bind decodeStr
    let hasVoted ← (getField fields "hasVoted").bind decodeBool
    let imageUrl ← (getField fields "imageUrl").bind decodeStr
    let isBlocked ← (getField fields "isBlocked").bind decodeBool
    pure { id := id, name := name, class' := cls, rollNo := rollNo,
           password := password, hasVoted := hasVoted, imageUrl := imageUrl,
           isBlocked := isBlocked }
  | _ => none

theorem decodeVoter_encode (v : Voter) : decodeVoter (encodeVoter v) = some v := by
  cases v
  rfl

def encodeVote (v : Vote) : Json :=
  .obj [("voterId", Json.str v.voterId), ("candidateId", Json.num v.candidateId),
        ("positionId", Json.num v.positionId), ("timestamp", Json.num v.timestamp)]

def decodeVote (j : Json) : Option Vote :=
  match j with
  | .obj fields => do
    let voterId ← (getField fields "voterId").bind decodeStr
    let candidateId ← (getField fields "candidateId").bind decodeNat
    let positionId ← (getField fields "positionId").bind decodeNat
    let timestamp ← (getField fields "timestamp").bind decodeInt
    pure { voterId := voterId, candidateId := candidateId,
           positionId := positionId, timestamp := timestamp }
  | _ => none

theorem decodeVote_encode (v : Vote) : decodeVote (encodeVote v) = some v := by
  cases v
  rfl

def encodeElectionDetails (d : ElectionDetails) : Json :=
  .obj [("name", Json.str d.name), ("description", Json.str d.description),
        ("endTime", encodeOptInt d.endTime)]

def decodeElectionDetails (j : Json) : Option ElectionDetails :=
  match j with
  | .obj fields => do
    let name ← (getField fields "name").bind decodeStr
    let description ← (getField fields "description").bind decodeStr
    let endTime ← (getField fields "endTime").bind decodeOptInt
    pure { name := name, description := description, endTime := endTime }
  | _ => none

theorem decodeElectionDetails_encode (d : ElectionDetails) :
    decodeElectionDetails (encodeElectionDetails d) = some d := by
  cases d with
  | mk name description endTime => cases endTime <;> rfl

def encodeElectionStatus : ElectionStatus → Json
  | .NOT_STARTED => .str "NOT_STARTED"
  | .IN_PROGRESS => .str "IN_PROGRESS"
  | .ENDED => .str "ENDED"

def decodeElectionStatus : Json → Option ElectionStatus
  | .str "NOT_STARTED" => some ElectionStatus.NOT_STARTED
  | .str "IN_PROGRESS" => some ElectionStatus.IN_PROGRESS
  | .str "ENDED" => some ElectionStatus.ENDED
  | _ => none

theorem decodeElectionStatus_encode (s : ElectionStatus) :
    decodeElectionStatus (encodeElectionStatus s) = some s := by
  cases s <;> rfl

def encodeRole : Role → Json
  | .Voter => .str "Voter"
  | .Admin => .str "Admin"
  | .SuperAdmin => .str "Super Admin"
  | .System => .str "System"

def decodeRole : Json → Option Role
  | .str "Voter" => some Role.Voter
  | .str "Admin" => some Role.Admin
  | .str "Super Admin" => some Role.SuperAdmin
  | .str "System" => some Role.System
  | _ => none

def encodeActor (a : Actor) : Json :=
  .obj [("id", Json.str a.id), ("name", Json.str a.name), ("role", encodeRole a.role)]

def decodeActor (j : Json) : Option Actor :=
  match j with
  | .obj fields => do
    let id ← (getField fields "id").bind decodeStr
    let name ← (getField fields "name").bind decodeStr
    let role ← (getField fields "role").bind decodeRole
    pure { id := id, name := name, role := role }
  | _ => none

theorem decodeActor_encode (a : Actor) : decodeActor (encodeActor a) = some a := by
  cases a with
  | mk id name role => cases role <;> rfl

def encodeAuditLogAction : AuditLogAction → Json
  | .ELECTION_START => .str "ELECTION_START"
  | .ELECTION_END => .str "ELECTION_END"
  | .ELECTION_RESET => .str "ELECTION_RESET"
  | .ELECTION_UPDATED => .str "ELECTION_UPDATED"
  | .RESULTS_PUBLISHED => .str "RESULTS_PUBLISHED"
  | .RESULTS_HIDDEN => .str "RESULTS_HIDDEN"
  | .VOTE_CAST => .str "VOTE_CAST"
  | .VOTER_CREATED => .str "VOTER_CREATED"
  | .VOTER_UPDATED => .str "VOTER_UPDATED"
  | .VOTER_DELETED => .str "VOTER_DELETED"
  | .VOTER_IMPORTED => .str "VOTER_IMPORTED"
  | .VOTER_BLOCKED => .str "VOTER_BLOCKED"
  | .VOTER_UNBLOCKED => .str "VOTER_UNBLOCKED"
  | .VOTER_VOTE_RESET => .str "VOTER_VOTE_RESET"
  | .CANDIDATE_CREATED => .str "CANDIDATE_CREATED"
  | .CANDIDATE_UPDATED => .str "CANDIDATE_UPDATED"
  | .CANDIDATE_DELETED => .str "CANDIDATE_DELETED"
  | .CANDIDATE_IMPORTED => .str "CANDIDATE_IMPORTED"
  | .POSITION_CREATED => .str "POSITION_CREATED"
  | .POSITION_UPDATED => .str "POSITION_UPDATED"
  | .POSITION_DELETED => .str "POSITION_DELETED"
  | .ADMIN_LOGIN => .str "ADMIN_LOGIN"
  | .VOTER_LOGIN_SUCCESS => .str "VOTER_LOGIN_SUCCESS"
  | .VOTER_LOGIN_FAIL => .str "VOTER_LOGIN_FAIL"
  | .ADMIN_PROFILE_UPDATED => .str "ADMIN_PROFILE_UPDATED"
  | .WORKSPACE_CREATED => .str "WORKSPACE_CREATED"
  | .WORKSPACE_DELETED => .str "WORKSPACE_DELETED"
  | .SA_PROFILE_UPDATED => .str "SA_PROFILE_UPDATED"

def decodeAuditLogAction : Json → Option AuditLogAction
  | .str "ELECTION_START" => some AuditLogAction.ELECTION_START
  | .str "ELECTION_END" => some AuditLogAction.ELECTION_END
  | .str "ELECTION_RESET" => some AuditLogAction.ELECTION_RESET
  | .str "ELECTION_UPDATED" => some AuditLogAction.ELECTION_UPDATED
  | .str "RESULTS_PUBLISHED" => some AuditLogAction.RESULTS_PUBLISHED
  | .str "RESULTS_HIDDEN" => some AuditLogAction.RESULTS_HIDDEN
  | .str "VOTE_CAST" => some AuditLogAction.VOTE_CAST
  | .str "VOTER_CREATED" => some AuditLogAction.VOTER_CREATED
  | .str "VOTER_UPDATED" => some AuditLogAction.VOTER_UPDATED
  | .str "VOTER_DELETED" => some AuditLogAction.VOTER_DELETED
  | .str "VOTER_IMPORTED" => some AuditLogAction.VOTER_IMPORTED
  | .str "VOTER_BLOCKED" => some AuditLogAction.VOTER_BLOCKED
  | .str "VOTER_UNBLOCKED" => some AuditLogAction.VOTER_UNBLOCKED
  | .str "VOTER_VOTE_RESET" => some AuditLogAction.VOTER_VOTE_RESET
  | .str "CANDIDATE_CREATED" => some AuditLogAction.CANDIDATE_CREATED
  | .str "CANDIDATE_UPDATED" => some AuditLogAction.CANDIDATE_UPDATED
  | .str "CANDIDATE_DELETED" => some AuditLogAction.CANDIDATE_DELETED
  | .str "CANDIDATE_IMPORTED" => some AuditLogAction.CANDIDATE_IMPORTED
  | .str "POSITION_CREATED" => some AuditLogAction.POSITION_CREATED
  | .str "POSITION_UPDATED" => some AuditLogAction.POSITION_UPDATED
  | .str "POSITION_DELETED" => some AuditLogAction.POSITION_DELETED
  | .str "ADMIN_LOGIN" => some AuditLogAction.ADMIN_LOGIN
  | .str "VOTER_LOGIN_SUCCESS" => some AuditLogAction.VOTER_LOGIN_SUCCESS
  | .str "VOTER_LOGIN_FAIL" => some AuditLogAction.VOTER_LOGIN_FAIL
  | .str "ADMIN_PROFILE_UPDATED" => some AuditLogAction.ADMIN_PROFILE_UPDATED
  | .str "WORKSPACE_CREATED" => some AuditLogAction.WORKSPACE_CREATED
  | .str "WORKSPACE_DELETED" => some AuditLogAction.WORKSPACE_DELETED
  | .str "SA_PROFILE_UPDATED" => some AuditLogAction.SA_PROFILE_UPDATED
  | _ => none

theorem decodeAuditLogAction_encode (a : AuditLogAction) :
    decodeAuditLogAction (encodeAuditLogAction a) = some a := by
  cases a <;> rfl

def encodeAuditLogEntry (e : AuditLogEntry) : Json :=
  .obj [("id", Json.str e.id), ("timestamp", Json.num e.timestamp),
        ("actor", encodeActor e.actor), ("action", encodeAuditLogAction e.action),
        ("details", Json.str e.details)]

def decodeAuditLogEntry (j : Json) : Option AuditLogEntry :=
  match j with
  | .obj fields => do
    let id ← (getField fields "id").bind decodeStr
    let timestamp ← (getField fields "timestamp").bind decodeInt
    let actor ← (getField fields "actor").bind decodeActor
    let action ← (getField fields "action").bind decodeAuditLogAction
    let details ← (getField fields "details").bind decodeStr
    pure { id := id, timestamp := timestamp, actor := actor, action := action,
           details := details }
  | _ => none

theorem decodeAuditLogEntry_encode (e : AuditLogEntry) :
    decodeAuditLogEntry (encodeAuditLogEntry e) = some e := by
  cases e with
  | mk id timestamp actor action details =>
    simp [encodeAuditLogEntry, decodeAuditLogEntry, getField, List.find?,
      decodeActor_encode, decodeAuditLogAction_encode, decodeStr, decodeInt]

def encodeWorkspace (w : Workspace) : Json :=
  .obj [("id", Json.str w.id), ("name", Json.str w.name)]

def decodeWorkspace (j : Json) : Option Workspace :=
  match j with
  | .obj fields => do
    let id ← (getField fields "id").bind decodeStr
    let name ← (getField fields "name").bind decodeStr
    pure { id := id, name := name }
  | _ => none

theorem decodeWorkspace_encode (w : Workspace) :
    decodeWorkspace (encodeWorkspace w) = some w := by
  cases w
  rfl

/-- `adminProfile: AdminProfile | null`. -/
def encodeOptAdminProfile : Option AdminProfile → Json
  | none => .null
  | some a => encodeAdminProfile a

def decodeOptAdminProfile : Json → Option (Option AdminProfile)
  | .null => some none
  | j => (decodeAdminProfile j).map some

theorem decodeOptAdminProfile_encode (o : Option AdminProfile) :
    decodeOptAdminProfile (encodeOptAdminProfile o) = some o := by
  cases o with
  | none => rfl
  | some a =>
    show (decodeAdminProfile (encodeAdminProfile a)).map some = some (some a)
    rw [decodeAdminProfile_encode a]
    rfl

def encodeWorkspaceData (d : WorkspaceData) : Json :=
  .obj [("positions", .arr (d.positions.map encodePosition)),
        ("candidates", .arr (d.candidates.map encodeCandidate)),
        ("voters", .arr (d.voters.map encodeVoter)),
        ("votes", .arr (d.votes.map encodeVote)),
        ("electionStatus", encodeElectionStatus d.electionStatus),
        ("electionDetails", encodeElectionDetails d.electionDetails),
        ("adminProfile", encodeOptAdminProfile d.adminProfile),
        ("auditLog", .arr (d.auditLog.map encodeAuditLogEntry)),
        ("resultsPublished", Json.bool d.resultsPublished)]

def decodeWorkspaceData (j : Json) : Option WorkspaceData :=
  match j with
  | .obj fields => do
    let positions ← (getField fields "positions").bind (decodeArr decodePosition)
    let candidates ← (getField fields "candidates").bind (decodeArr decodeCandidate)
    let voters ← (getField fields "voters").bind (decodeArr decodeVoter)
    let votes ← (getField fields "votes").bind (decodeArr decodeVote)
    let electionStatus ← (getField fields "electionStatus").bind decodeElectionStatus
    let electionDetails ← (getField fields "electionDetails").bind decodeElectionDetails
    let adminProfile ← (getField fields "adminProfile").bind decodeOptAdminProfile
    let auditLog ← (getField fields "auditLog").bind (decodeArr decodeAuditLogEntry)
    let resultsPublished ← (getField fields "resultsPublished").bind decodeBool
    pure { positions := positions, candidates := candidates, voters := voters,
           votes := votes, electionStatus := electionStatus,
           electionDetails := electionDetails, adminProfile := adminProfile,
           auditLog := auditLog, resultsPublished := resultsPublished }
  | _ => none

theorem decodeWorkspaceData_encode (d : WorkspaceData) :
    decodeWorkspaceData (encodeWorkspaceData d) = some d := by
  cases d
  simp [encodeWorkspaceData, decodeWorkspaceData, getField, List.find?,
    decodeArr_map_encode _ _ decodePosition_encode,
    decodeArr_map_encode _ _ decodeCandidate_encode,
    decodeArr_map_encode _ _ decodeVoter_encode,
    decodeArr_map_encode _ _ decodeVote_encode,
    decodeArr_map_encode _ _ decodeAuditLogEntry_encode,
    decodeElectionStatus_encode, decodeElectionDetails_encode,
    decodeOptAdminProfile_encode, decodeBool]

/-- The `workspaceData` map, one JSON object key per workspace id. -/
def encodeWorkspaceDataMap (m : List (String × WorkspaceData)) : Json :=
  .obj (m.map (fun p => (p.1, encodeWorkspaceData p.2)))

def decodePairs : List (String × Json) → Option (List (String × WorkspaceData))
  | [] => some []
  | p :: rest => do
    let d ← decodeWorkspaceData p.2
    let ds ← decodePairs rest
    pure ((p.1, d) :: ds)

def decodeWorkspaceDataMap : Json → Option (List (String × WorkspaceData))
  | .obj fields => decodePairs fields
  | _ => none

theorem decodeWorkspaceDataMap_encode (m : List (String × WorkspaceData)) :
    decodeWorkspaceDataMap (encodeWorkspaceDataMap m) = some m := by
  induction m with
  | nil => rfl
  | cons p rest ih =>
    simp only [encodeWorkspaceDataMap, decodeWorkspaceDataMap, List.map_cons,
      decodePairs, decodeWorkspaceData_encode] at ih ⊢
    simp [ih]

def encodeTheme : Theme → Json
  | .light => .str "light"
  | .dark => .str "dark"

def decodeTheme : Json → Option Theme
  | .str "light" => some Theme.light
  | .str "dark" => some Theme.dark
  | _ => none

/-- src/App.tsx lines 430-433 `stateToSave`: the document written by
`handleBackupToJson` (field order of the object literal). -/
def encodeFullAppState (s : FullAppState) : Json :=
  .obj [("theme", encodeTheme s.theme),
        ("workspaces", .arr (s.workspaces.map encodeWorkspace)),
        ("superAdminProfile", encodeAdminProfile s.superAdminProfile),
        ("workspaceData", encodeWorkspaceDataMap s.workspaceData),
        ("lastWorkspaceId", encodeOptStr s.lastWorkspaceId),
        ("lastBackupTimestamp", encodeOptInt s.lastBackupTimestamp)]

/-- src/App.tsx lines 452-479 `handleRestoreFromJson`: the parsed
document read back per the FullAppState shape. -/
def decodeFullAppState (j : Json) : Option FullAppState :=
  match j with
  | .obj fields => do
    let theme ← (getField fields "theme").bind decodeTheme
    let workspaces ← (getField fields "workspaces").bind (decodeArr decodeWorkspace)
    let superAdminProfile ← (getField fields "superAdminProfile").bind decodeAdminProfile
    let workspaceData ← (getField fields "workspaceData").bind decodeWorkspaceDataMap
    let lastWorkspaceId ← (getField fields "lastWorkspaceId").bind decodeOptStr
    let lastBackupTimestamp ← (getField fields "lastBackupTimestamp").bind decodeOptInt
    pure { workspaces := workspaces, superAdminProfile := superAdminProfile,
           workspaceData := workspaceData, theme := theme,
           lastWorkspaceId := lastWorkspaceId,
           lastBackupTimestamp := lastBackupTimestamp }
  | _ => none

/-! ## Claim C9 -/

/-- C9: exporting any FullAppState to the backup document and importing
that document reproduces a deeply equal FullAppState — every
workspace's nested WorkspaceData and per-workspace audit log included,
not only the active workspace's data, since the document carries the
entire workspaceData map. -/
theorem C9_backup_round_trip (s : FullAppState) :
    decodeFullAppState (encodeFullAppState s) = some s := by
  cases s with
  | mk workspaces superAdminProfile workspaceData theme lastWorkspaceId lastBackupTimestamp =>
    cases theme <;> cases lastWorkspaceId <;> cases lastBackupTimestamp <;>
    simp [encodeFullAppState, decodeFullAppState, getField, List.find?,
      encodeTheme, decodeTheme, encodeOptStr, decodeOptStr, encodeOptInt, decodeOptInt,
      decodeArr_map_encode _ _ decodeWorkspace_encode,
      decodeAdminProfile_encode, decodeWorkspaceDataMap_encode]

end School
